import Mathlib

/-
Verification of the Dynamic-Compass-Logistics repository.

Part 1 embeds the only source file, src/compasstheory.py, as a deep
embedding of the tiny Python fragment it uses: `main` binds one raw
string literal to the variable `theory` and prints it.  The statement
language also has an input-reading statement (which the program never
uses) so that input-independence is a statement about a semantics that
could consume input.

Part 2 models the discrete-time network-flow simulator that the
specification reconstructs from the essay (Node Registry, Edge Table,
Flow Resolver, Equilibrium Stepper); no code for it exists in the
repository, so every definition there is modelled from the spec.
-/

/-- The fixed essay text that `main` in compasstheory.py prints (the r-string bound to `theory`). -/
def theoryText : String :=
"1. The Axiomatic Foundations of Dynamic Compass Logistics
---------------------------------------------------------------
At its core, the Dynamic Compass Logistics framework is built on several axioms that mirror fundamental physical principles and economic truths:

A. Conservation of Goods (Mass/Energy Analogy)
------------------------------------------------
Axiom: In any closed (or nearly closed) logistics network, goods are neither created nor destroyed.

Mathematical Expression:
    Inflows(i) - Outflows(i) = ΔI(i)
where I(i) is the inventory at node i.

Physical Analogy:
    Like the conservation of mass or charge in physics, every unit dispatched from a supplier must either arrive at a destination or be accounted for (e.g., stored or backlogged).

B. Capacity Constraints and Flow Limits
------------------------------------------
Axiom: The flow from one node to another cannot exceed the available supply at the source, the unmet demand at the destination, nor the transport route’s maximum capacity.

Equation:
    f(i, j, t) = min \x7b s(i, t),  d(j, t),  c(i, j, t) \x7d

Physical Analogy:
    This is like a pipe’s flow rate in fluid dynamics (where the narrowest pipe limits flow) or current flow in an electrical circuit (limited by the smallest conductor or highest resistance).

C. Dynamic Routing and Equilibrium (Potential Differences)
-------------------------------------------------------------
Axiom: Each node makes “local” decisions by evaluating its own state relative to its neighbors. The idea is to send resources from nodes with surplus (high inventory, high “potential”) toward nodes with deficits (low inventory, low “potential”).

Compass Mechanism:
    Define a node’s “potential” as:
        φ(i) = I(i) / I(i)_target
    where a value φ > 1 suggests surplus and φ < 1 indicates a need.

Economic Analogy:
    This is akin to price signals in a market—where shortages push prices up and surpluses push them down—driving redistribution.

D. Inertia and Buffering (Momentum)
--------------------------------------
Axiom: Changes in flow are not instantaneous. Inventories act as buffers (much like a capacitor or flywheel) that ensure stability in the face of shocks.

Implication:
    This principle explains phenomena such as the “bullwhip effect” and underscores the need for calculated buffering versus lean inventory.

E. Distributed Decision-Making and Self-Organization
-------------------------------------------------------
Axiom: There is no single central authority dictating every flow. Instead, local nodes measure and react to their immediate environment, achieving global adaptive behavior emergently.

Physical/Network Analogy:
    This is similar to how local interactions in a fluid or electrical network lead to overall equilibrium (e.g., Kirchhoff’s Laws in electrical circuits).

2. Mapping the Theory to Economic and Physical Paradigms
---------------------------------------------------------
Microeconomics and Liquidity
    Inventory vs. Liquidity:
        Think of each node’s inventory as “liquidity” that allows immediate response.
        A node with a high φ (or surplus) can act as a mini “bank” that can lend out (ship) resources to a needy node.
    Local Decision-Making:
        The dynamic routing decision is akin to how local market participants adjust supply based on local price signals.

Macroeconomics and Capital Flow
    Distributed vs. Centralized Models:
        When turned into a network model, the whole system mirrors capital flow at a macro level.
        Capital (or goods) flows along the “path of least resistance” until supply equals demand globally.
    System Stability:
        Just as macroeconomic systems need buffers (e.g., foreign exchange reserves) for stability during shocks, the network requires inventory buffers to maintain flow stability.

3. Turning Theory into a Node.js Implementation
--------------------------------------------------
While Node.js is traditionally an event-driven, non-blocking runtime often used for web applications, its characteristics make it ideal for simulating decentralized, real-time networks. Here’s how the various elements of the theory might be executed within a Node.js framework:

A. Object-Oriented Model for Nodes and Edges
    Nodes:
        Each node is an independent agent with properties like current inventory, target inventory, and a “compass” (potential φ).
        In Node.js, these can be represented using classes.
    Edges (Links):
        Each edge represents a connection between two nodes with its own capacity.
        Edges can encapsulate a method to compute flow based on the minimum of supply, demand, and capacity.

B. Asynchronous Decision-Making and Real-Time Updates
    Local Decision Loops:
        Node.js’s event loop can simulate local decision-making.
        Each node might run its own asynchronous “heartbeat” (or interval timer) that recalculates its state and communicates with neighboring nodes.
    Event-Driven Architecture:
        Use Node.js events (or even WebSockets for a distributed real-time network) to notify connected nodes when their state changes.
        For example, when a node’s inventory falls below a threshold, it could emit an event that nearby nodes listen for, triggering local redistributions.
    Simulation of Disruptions:
        Integrate events that simulate sudden changes (e.g., an edge’s capacity dropping to zero due to disruption, then recovering).
        This helps test the network’s resilience — much like how physical systems respond to perturbations.

C. Agent-Based Simulation and Distributed Systems
    Multiple Processes (or Microservices):
        For a more distributed simulation that mirrors the decentralized decision-making of the real system, each node could be run as a separate process or microservice.
        These processes exchange messages over a network (using protocols such as WebSockets or even TCP sockets).
    Scalability Considerations:
        Node.js’s non-blocking I/O model means that even with many nodes (agents), the system can scale to simulate large networks in near real-time.

D. Computational Methods and Optimization Algorithms
    Flow Calculation Algorithm:
        Each node calculates the flow on each connection based on the function:
            f(i, j, t) = min \x7b s(i, t),  d(j, t),  c(i, j, t) \x7d
        and then updates its state accordingly.
    Dynamic Re-Routing:
        Use local “compass” vectors to decide the optimal neighbor to which resources should be allocated.
        This is analogous to sending a current along the path of least resistance in an electrical network.
    Feedback Loops and Equilibrium:
        Nodes continuously update their inventories, and through small increments, the whole system shifts toward equilibrium (comparable to a damping system in physics).
        Algorithms for proportional control or threshold-based triggers can be implemented.

E. Integration with Modern Technologies
    Real-Time Data and IoT:
        While the simulation itself might run on Node.js, the same architecture could later be extended to consume real-time inputs from IoT devices (inventory sensors, transport data) via REST APIs or WebSocket streams.
    Blockchain and Transparency:
        For humanitarian applications (like the Myanmar case study), a blockchain component could be integrated to provide an immutable ledger for each transfer.
        Node.js has robust libraries for integrating with blockchain networks, thereby adding transparency and accountability.
    Machine Learning Integration:
        With Node.js serving as the orchestration layer, collected data can feed into ML algorithms (written in Python, for example) to adjust prediction models for c(i, j, t) (e.g., capacity forecasts) or refine the “compass” signals.
        Results can then be fed back into the Node.js system.

4. What Does This Do for Us?
-----------------------------
Translating the theory into a Node.js-based simulation or operational system gives us several powerful capabilities:

    - Real-Time Decentralized Simulation:
          The event-driven nature of Node.js allows each node to operate asynchronously, reflecting the local decision-making central to the Dynamic Compass theory.
          This simulation can capture the emergent behavior of the whole network as nodes constantly adjust their flows based on local and neighbor conditions.

    - Testbed for Axiomatic Principles:
          With a Node.js environment, we can run extensive experiments on scenarios (e.g., node disruptions, sudden demand spikes, temporary route failures)
          and validate that the conservation laws, flow limits, and dynamic re-routing indeed lead to stable, efficient, and self-healing systems.

    - Bridging Theory and Practice:
          The architecture can be scaled — from small localized networks (e.g., a region in Myanmar during a humanitarian crisis)
          to larger networks (national or even international supply chains).
          This is especially crucial when trying to demonstrate that what appears to be “intuitive” physics on a whiteboard translates into tangible improvements in logistics operations.

    - A Platform for Innovation:
          Once the simulation framework is running, additional modules (such as dynamic pricing, tokenized incentives, and real-time monitoring dashboards) can be layered on.
          This builds a comprehensive platform that not only validates the theory but also provides a practical tool to experiment, iterate, and eventually deploy in real-world supply chain environments.

    - Interdisciplinary Verification:
          The Node.js implementation serves as a bridge between disciplines.
          Economists, operations researchers, and physicists can all examine the outputs, compare them to predictions (e.g., equilibrium conditions, inventory oscillations),
          and use these insights to refine both theory and practice.

5. Methods and Strategies for Execution in Node.js
----------------------------------------------------
When moving from theory to a full Node.js implementation, consider the following execution methods:

    - Synchronous Simulation Loop:
          Implement a timer-based loop where each iteration recalculates node inventories and flows.
          This method is straightforward for prototyping the global dynamics of the network.

    - Asynchronous Event-Driven Agents:
          Each node runs its own timer or event loop.
          Nodes emit events (e.g., “inventory change”, “capacity disruption”) that neighboring nodes subscribe to.
          This mirrors the decentralized, reactive nature of the theory.

    - Distributed Microservices Architecture:
          Create a microservices model where each node is a separate service (or even containerized instance).
          Use messaging queues (for example, RabbitMQ or Kafka) to distribute events among nodes.
          This allows you to simulate geographically distributed nodes that mimic real-world settings.

    - Integration with Real-Time Data Sources:
          Once the theory is sound and the simulation validated, extend the architecture by adding REST or WebSocket endpoints,
          enabling nodes to receive live data about supply, demand, and route capacities from external APIs or IoT sensor networks.

    - Feedback and Optimization Layers:
          Implement a module that dynamically adjusts parameters (like capacities or the “compass” sensitivity) based on historical performance data.
          Techniques from machine learning can be integrated to forecast disruptions or adjust thresholds dynamically.

    - Visualization and Dashboarding:
          Use Node.js in conjunction with front-end technologies (React, D3.js) to build real-time dashboards that display the state of the network.
          Visual representations of node status, flow amounts, and network topology can help stakeholders understand system dynamics intuitively.

Conclusion
------------
By turning the concept of Dynamic Compass Logistics into a Node.js application, we create a platform that is both a simulation engine and (potentially) an operational backbone for decentralized supply chain management. The Node.js implementation would:

    - Model nodes and flows with object-oriented structures, mirroring the conservation and flow-limited axioms.
    - Utilize asynchronous event-driven programming to capture decentralized, real-time decision-making.
    - Scale from single-process simulations to distributed microservices for large networks, integrating live data streams.
    - Provide a testbed for evaluating economic, physical, and logistical principles side by side, thereby informing policy and operational decisions.

This full theory not only bridges physics and finance into a robust logistics framework but also demonstrates—through concrete methods and execution strategies—how a modern, decentralized system can be both simulated and eventually deployed using the versatile Node.js platform.
"

/-- Python values occurring in the program: `None` and strings. -/
inductive PyVal where
  | none
  | str (s : String)
deriving DecidableEq

/-- Expressions of the embedded Python fragment: string literals and variable reads. -/
inductive PyExpr where
  | strLit (s : String)
  | var (x : String)
deriving DecidableEq

/-- Statements of the embedded Python fragment.  `inputAssign` models
`x = input()`; the source program never uses it, it exists so that the
semantics has a way to consume standard input at all. -/
inductive PyStmt where
  | assign (x : String) (e : PyExpr)
  | printCall (e : PyExpr)
  | inputAssign (x : String)
deriving DecidableEq

/-- Variable environment: most recent binding first. -/
def lookupVar (env : List (String × String)) (x : String) : Option String :=
  (env.find? (fun b => b.1 == x)).map (fun b => b.2)

/-- Expression evaluation; `Option.none` models a Python `NameError`. -/
def evalPyExpr (env : List (String × String)) : PyExpr → Option String
  | .strLit s => some s
  | .var x => lookupVar env x

/-- Big-step execution of a statement list: returns the printed lines and the
function result (falling off the end returns `None`, as in Python), or
`Option.none` on a runtime error (unbound variable, exhausted input). -/
def execStmts : List PyStmt → List (String × String) → List String →
    Option (List String × PyVal)
  | [], _, _ => some ([], PyVal.none)
  | .assign x e :: rest, env, stdin => do
      let v ← evalPyExpr env e
      execStmts rest ((x, v) :: env) stdin
  | .printCall e :: rest, env, stdin => do
      let v ← evalPyExpr env e
      let (out, r) ← execStmts rest env stdin
      some (v :: out, r)
  | .inputAssign x :: rest, env, stdin =>
      match stdin with
      | [] => Option.none
      | line :: stdin' => execStmts rest ((x, line) :: env) stdin'

/-- Fuel-bounded execution: one unit of fuel per executed statement (and one
for the final fall-off-the-end return); `Option.none` when fuel runs out or a
runtime error occurs. -/
def execFuel : Nat → List PyStmt → List (String × String) → List String →
    Option (List String × PyVal)
  | 0, _, _, _ => Option.none
  | _ + 1, [], _, _ => some ([], PyVal.none)
  | fuel + 1, .assign x e :: rest, env, stdin => do
      let v ← evalPyExpr env e
      execFuel fuel rest ((x, v) :: env) stdin
  | fuel + 1, .printCall e :: rest, env, stdin => do
      let v ← evalPyExpr env e
      let (out, r) ← execFuel fuel rest env stdin
      some (v :: out, r)
  | fuel + 1, .inputAssign x :: rest, env, stdin =>
      match stdin with
      | [] => Option.none
      | line :: stdin' => execFuel fuel rest ((x, line) :: env) stdin'

/-- The body of `main` in src/compasstheory.py: bind the essay to the
variable `theory`, then `print(theory)`. -/
def mainBody : List PyStmt :=
  [PyStmt.assign "theory" (PyExpr.strLit theoryText),
   PyStmt.printCall (PyExpr.var "theory")]

/-- Running `main` on a given standard input: it takes no arguments and an
invocation starts from the empty environment. -/
def runMain (stdin : List String) : Option (List String × PyVal) :=
  execStmts mainBody [] stdin

/-
Part 2: the reconstructed simulator.  The repository contains no code for
it; every definition below is modelled from spec.md, which reconstructs the
implied design (Node Registry, Edge Table, Flow Resolver, Equilibrium
Stepper, Disruption Injector).  Quantities are rationals, standing in for
the spec's reals, so that everything stays executable.
-/

/-- Modelled from the spec (§3 Data Model): a Node has a unique identifier,
a current inventory and a target inventory. -/
structure SimNode where
  id : Nat
  inventory : ℚ
  target : ℚ
deriving DecidableEq

/-- Modelled from the spec (§3 Data Model): an Edge connects a source node
to a destination node and carries a time-varying capacity. -/
structure SimEdge where
  id : Nat
  src : Nat
  dst : Nat
  capacity : ℚ
deriving DecidableEq

/-- Modelled from the spec (§2 System Overview): the Node Registry and the
Edge Table together form the network state. -/
structure Network where
  nodes : List SimNode
  edges : List SimEdge
deriving DecidableEq

/-- Modelled from the spec (§7 Error Handling Design): the error kinds. -/
inductive SimErr where
  | DuplicateNodeError
  | NotFoundError
  | InvalidTargetError
  | NegativeCapacityError
  | NegativeInventoryError
  | ConservationViolationError
deriving DecidableEq

/-- Node Registry lookup by identifier. -/
def findNode (net : Network) (i : Nat) : Option SimNode :=
  net.nodes.find? (fun n => n.id == i)

/-- Inventory of node `i` as read from the registry (0 for an unknown id). -/
def invOf (net : Network) (i : Nat) : ℚ :=
  match findNode net i with
  | some n => n.inventory
  | Option.none => 0

/-- Target of node `i` as read from the registry (0 for an unknown id). -/
def targetOf (net : Network) (i : Nat) : ℚ :=
  match findNode net i with
  | some n => n.target
  | Option.none => 0

/-- Modelled from the spec (§4.3): `supply(i,t) = max(0, inventory(i) - target(i))`. -/
def supply (net : Network) (i : Nat) : ℚ :=
  max 0 (invOf net i - targetOf net i)

/-- Modelled from the spec (§4.3): `demand(j,t) = max(0, target(j) - inventory(j))`. -/
def demand (net : Network) (j : Nat) : ℚ :=
  max 0 (targetOf net j - invOf net j)

/-- Combined demand over the destinations of node `i`'s outgoing edges
(the `Σ demand(neighbors)` of the spec's §4.3 tie-break policy). -/
def outDemand (net : Network) (i : Nat) : ℚ :=
  ((net.edges.filter (fun e => e.src == i)).map (fun e => demand net e.dst)).sum

/-- Modelled from the spec (§4.3 Flow Resolver): when the source's combined
outgoing demand does not exceed its surplus the flow on an edge is
`min(supply, demand, capacity)`; otherwise the tie-break policy allocates the
surplus proportionally to each destination's demand share,
`surplus * demand(j) / Σ demand(neighbors)`, capped by the edge capacity
(the cap is forced by §3's `flow ≤ min(supply, demand, capacity)` bound on a
FlowAssignment and §8's capacity-respect property).  All reads use the
pre-tick snapshot `net`. -/
def flowOf (net : Network) (e : SimEdge) : ℚ :=
  let s := supply net e.src
  let d := demand net e.dst
  let D := outDemand net e.src
  if D ≤ s then min s (min d e.capacity)
  else min e.capacity (s * d / D)

/-- Modelled from the spec (§3): the ephemeral per-tick FlowAssignment
record: an edge together with its computed flow amount. -/
structure FlowAssignment where
  edge : SimEdge
  amount : ℚ
deriving DecidableEq

/-- Modelled from the spec (§4.3): one FlowAssignment per edge, computed
purely from the pre-tick snapshot. -/
def resolveFlows (net : Network) : List FlowAssignment :=
  net.edges.map (fun e => FlowAssignment.mk e (flowOf net e))

/-- Net inventory change of node `i` under a set of flow assignments: the sum
over all assignments of inflow (when `i` is the destination) minus outflow
(when `i` is the source).  This is the spec's §5 reduction step summing all
deltas per node before applying. -/
def netDelta (flows : List FlowAssignment) (i : Nat) : ℚ :=
  (flows.map (fun f =>
    (if f.edge.dst == i then f.amount else 0) -
    (if f.edge.src == i then f.amount else 0))).sum

/-- Modelled from the spec (§4.4 Equilibrium Stepper): apply the per-node
summed deltas to every node's inventory; if any resulting inventory would be
negative the tick fails atomically with `ConservationViolationError` and no
partial mutation is retained (the error carries no state). -/
def applyFlows (net : Network) (flows : List FlowAssignment) :
    Except SimErr Network :=
  let newNodes := net.nodes.map (fun n =>
    { n with inventory := n.inventory + netDelta flows n.id })
  if newNodes.all (fun n => decide (0 ≤ n.inventory)) then
    Except.ok { net with nodes := newNodes }
  else
    Except.error SimErr.ConservationViolationError

/-- Modelled from the spec (§4.4): one tick: snapshot the state, resolve the
flows from the snapshot, then apply all deltas atomically. -/
def tick (net : Network) : Except SimErr Network :=
  applyFlows net (resolveFlows net)

/-- True when the registry already holds a node with identifier `i`. -/
def hasNode (net : Network) (i : Nat) : Bool :=
  net.nodes.any (fun n => n.id == i)

/-- Modelled from the spec (§4.1 Node Registry):
`addNode(id, initialInventory, targetInventory)` fails with
`DuplicateNodeError` if the id exists, otherwise registers the node. -/
def addNode (net : Network) (i : Nat) (initInv tgt : ℚ) :
    Except SimErr Network :=
  if hasNode net i then Except.error SimErr.DuplicateNodeError
  else Except.ok { net with nodes := net.nodes ++ [SimNode.mk i initInv tgt] }

/-- Modelled from the spec (§4.5 Disruption Injector): `disruptDemand`
adjusts a node's target inventory directly, simulating a demand spike. -/
def disruptDemand (net : Network) (i : Nat) (delta : ℚ) : Network :=
  { net with nodes := net.nodes.map (fun n =>
      if n.id == i then { n with target := n.target + delta } else n) }

/-- Modelled from the spec (§4.2 / §4.5): `setCapacity` overwrites one
edge's capacity, as used by the Disruption Injector. -/
def setCapacity (net : Network) (eid : Nat) (c : ℚ) : Network :=
  { net with edges := net.edges.map (fun e =>
      if e.id == eid then { e with capacity := c } else e) }

/-- Total inventory held across the whole network. -/
def totalInventory (net : Network) : ℚ :=
  (net.nodes.map SimNode.inventory).sum

/-- The spec's §8 scenario network: node A (id 0, inventory 100, target 50)
and node B (id 1, inventory 0, target 50) joined by one edge of capacity 100. -/
def netAB : Network :=
  Network.mk [SimNode.mk 0 100 50, SimNode.mk 1 0 50] [SimEdge.mk 0 0 1 100]

/-- A network where one source's combined outgoing demand (120) exceeds its
surplus (90), so the spec's tie-break policy applies. -/
def netSplit : Network :=
  Network.mk [SimNode.mk 0 100 10, SimNode.mk 1 0 60, SimNode.mk 2 0 60]
    [SimEdge.mk 0 0 1 100, SimEdge.mk 1 0 2 100]

/-- A two-node network with a capacity-limited edge (capacity 30). -/
def netCap : Network :=
  Network.mk [SimNode.mk 0 100 50, SimNode.mk 1 0 50] [SimEdge.mk 0 0 1 30]

/-- A single-edge network whose combined outgoing demand (30) stays below the
source surplus (50). -/
def netSimple : Network :=
  Network.mk [SimNode.mk 0 80 30, SimNode.mk 1 10 40] [SimEdge.mk 0 0 1 100]

/-- A small well-formed network used to instantiate the invariant theorems. -/
def netSmall : Network :=
  Network.mk [SimNode.mk 0 9 4, SimNode.mk 1 1 6] [SimEdge.mk 0 0 1 2]

/-- An ill-formed network whose edge has negative capacity: the resolver then
computes a negative flow, the inconsistent-flow situation of the spec's §4.4
failure clause. -/
def netBad : Network :=
  Network.mk [SimNode.mk 0 10 0, SimNode.mk 1 0 5] [SimEdge.mk 0 0 1 (-7)]

/-- A one-node registry used to exercise `addNode`. -/
def netOne : Network :=
  Network.mk [SimNode.mk 3 1 2] []

/-- A network in which every node is at or below its target (zero surplus
everywhere). -/
def netIdle : Network :=
  Network.mk [SimNode.mk 0 5 10, SimNode.mk 1 3 3] [SimEdge.mk 0 0 1 4]

/-! ### Helper lemmas -/

theorem sum_map_add_q {α : Type} (l : List α) (f g : α → ℚ) :
    (l.map (fun a => f a + g a)).sum = (l.map f).sum + (l.map g).sum := by
  induction l with
  | nil => simp
  | cons a l ih => simp only [List.map_cons, List.sum_cons, ih]; ring

theorem sum_map_zero_q {α : Type} (l : List α) :
    (l.map (fun _ => (0 : ℚ))).sum = 0 := by
  induction l with
  | nil => simp
  | cons a l ih => simp [ih]

theorem netDelta_nil (i : Nat) : netDelta [] i = 0 := rfl

theorem netDelta_cons (f : FlowAssignment) (fs : List FlowAssignment) (i : Nat) :
    netDelta (f :: fs) i =
      ((if f.edge.dst == i then f.amount else 0) -
        (if f.edge.src == i then f.amount else 0)) + netDelta fs i := by
  simp [netDelta]

theorem netDelta_eq (flows : List FlowAssignment) (i : Nat) :
    netDelta flows i =
      (flows.map (fun f => if f.edge.dst == i then f.amount else 0)).sum -
      (flows.map (fun f => if f.edge.src == i then f.amount else 0)).sum := by
  induction flows with
  | nil => simp [netDelta]
  | cons f fs ih =>
    simp only [netDelta, List.map_cons, List.sum_cons] at ih ⊢
    rw [ih]; ring

theorem sum_map_sub_q {α : Type} (l : List α) (f g : α → ℚ) :
    (l.map (fun a => f a - g a)).sum = (l.map f).sum - (l.map g).sum := by
  induction l with
  | nil => simp
  | cons a l ih => simp only [List.map_cons, List.sum_cons, ih]; ring

theorem sum_ite_not_mem (l : List Nat) (j : Nat) (a : ℚ) (hj : j ∉ l) :
    (l.map (fun i => if j == i then a else 0)).sum = 0 := by
  induction l with
  | nil => simp
  | cons b l ih =>
    simp only [List.mem_cons, not_or] at hj
    simp only [List.map_cons, List.sum_cons]
    rw [if_neg (by simp [hj.1]), ih hj.2, add_zero]

theorem sum_ite_mem (l : List Nat) (j : Nat) (a : ℚ) (hnd : l.Nodup) (hj : j ∈ l) :
    (l.map (fun i => if j == i then a else 0)).sum = a := by
  induction l with
  | nil => cases hj
  | cons b l ih =>
    rcases List.nodup_cons.mp hnd with ⟨hb, hnd'⟩
    rcases List.mem_cons.mp hj with h | h
    · subst h
      simp only [List.map_cons, List.sum_cons]
      rw [if_pos (by simp), sum_ite_not_mem l j a hb, add_zero]
    · have hbj : ¬(j = b) := fun hh => hb (hh ▸ h)
      simp only [List.map_cons, List.sum_cons]
      rw [if_neg (by simp [hbj]), ih hnd' h, zero_add]

theorem sum_nodes_ite (nodes : List SimNode) (j : Nat) (a : ℚ)
    (hnd : (nodes.map SimNode.id).Nodup) (hj : j ∈ nodes.map SimNode.id) :
    (nodes.map (fun n => if j == n.id then a else 0)).sum = a := by
  have h := sum_ite_mem (nodes.map SimNode.id) j a hnd hj
  simpa [List.map_map, Function.comp] using h

theorem sum_netDelta_zero (nodes : List SimNode) (flows : List FlowAssignment)
    (hnd : (nodes.map SimNode.id).Nodup)
    (hmem : ∀ f ∈ flows, f.edge.src ∈ nodes.map SimNode.id ∧
      f.edge.dst ∈ nodes.map SimNode.id) :
    (nodes.map (fun n => netDelta flows n.id)).sum = 0 := by
  induction flows with
  | nil =>
    simp only [netDelta_nil]
    exact sum_map_zero_q nodes
  | cons f fs ih =>
    have h1 := hmem f (List.mem_cons_self f fs)
    have h2 : ∀ g ∈ fs, g.edge.src ∈ nodes.map SimNode.id ∧
        g.edge.dst ∈ nodes.map SimNode.id :=
      fun g hg => hmem g (List.mem_cons_of_mem f hg)
    calc (nodes.map (fun n => netDelta (f :: fs) n.id)).sum
        = (nodes.map (fun n =>
            ((if f.edge.dst == n.id then f.amount else 0) -
              (if f.edge.src == n.id then f.amount else 0)) + netDelta fs n.id)).sum := by
          simp only [netDelta_cons]
      _ = (nodes.map (fun n =>
            (if f.edge.dst == n.id then f.amount else 0) -
              (if f.edge.src == n.id then f.amount else 0))).sum +
          (nodes.map (fun n => netDelta fs n.id)).sum :=
          sum_map_add_q nodes _ _
      _ = 0 := by
          rw [ih h2]
          have hrw : (nodes.map (fun n =>
              (if f.edge.dst == n.id then f.amount else 0) -
                (if f.edge.src == n.id then f.amount else 0))).sum =
              (nodes.map (fun n => if f.edge.dst == n.id then f.amount else 0)).sum -
              (nodes.map (fun n => if f.edge.src == n.id then f.amount else 0)).sum :=
            sum_map_sub_q nodes _ _
          rw [hrw, sum_nodes_ite nodes f.edge.dst f.amount hnd h1.2,
            sum_nodes_ite nodes f.edge.src f.amount hnd h1.1]
          ring

theorem supply_nonneg (net : Network) (i : Nat) : 0 ≤ supply net i :=
  le_max_left 0 _

theorem demand_nonneg (net : Network) (j : Nat) : 0 ≤ demand net j :=
  le_max_left 0 _

theorem flowOf_le_capacity (net : Network) (e : SimEdge) :
    flowOf net e ≤ e.capacity := by
  simp only [flowOf]
  split
  · exact le_trans (min_le_right _ _) (min_le_right _ _)
  · exact min_le_left _ _

theorem flowOf_nonneg (net : Network) (e : SimEdge) (hc : 0 ≤ e.capacity) :
    0 ≤ flowOf net e := by
  simp only [flowOf]
  split
  · exact le_min (supply_nonneg net e.src) (le_min (demand_nonneg net e.dst) hc)
  · rename_i h
    have hD : 0 < outDemand net e.src :=
      lt_of_le_of_lt (supply_nonneg net e.src) (not_le.mp h)
    exact le_min hc (div_nonneg
      (mul_nonneg (supply_nonneg net e.src) (demand_nonneg net e.dst)) hD.le)

theorem sum_map_ite_filter {α : Type} (l : List α) (p : α → Bool) (f : α → ℚ) :
    (l.map (fun a => if p a then f a else 0)).sum = ((l.filter p).map f).sum := by
  induction l with
  | nil => simp
  | cons a l ih =>
    cases hpa : p a <;> simp [List.filter_cons, hpa, ih]

theorem outflow_resolve (net : Network) (i : Nat) :
    ((resolveFlows net).map (fun f => if f.edge.src == i then f.amount else 0)).sum =
      ((net.edges.filter (fun e => e.src == i)).map (flowOf net)).sum := by
  simp only [resolveFlows, List.map_map, Function.comp]
  exact sum_map_ite_filter net.edges (fun e => e.src == i) (flowOf net)

theorem sum_flow_le_supply (net : Network) (i : Nat) :
    ((net.edges.filter (fun e => e.src == i)).map (flowOf net)).sum ≤ supply net i := by
  by_cases h : outDemand net i ≤ supply net i
  · have hb : ∀ e ∈ net.edges.filter (fun e => e.src == i),
        flowOf net e ≤ demand net e.dst := by
      intro e he
      have hsrc : e.src = i := by simpa using List.of_mem_filter he
      simp only [flowOf, hsrc, if_pos h]
      exact le_trans (min_le_right _ _) (min_le_left _ _)
    calc ((net.edges.filter (fun e => e.src == i)).map (flowOf net)).sum
        ≤ ((net.edges.filter (fun e => e.src == i)).map
            (fun e => demand net e.dst)).sum := List.sum_le_sum hb
      _ = outDemand net i := rfl
      _ ≤ supply net i := h
  · have hD : 0 < outDemand net i :=
      lt_of_le_of_lt (supply_nonneg net i) (not_le.mp h)
    have hb : ∀ e ∈ net.edges.filter (fun e => e.src == i),
        flowOf net e ≤ supply net i / outDemand net i * demand net e.dst := by
      intro e he
      have hsrc : e.src = i := by simpa using List.of_mem_filter he
      simp only [flowOf, hsrc, if_neg h]
      rw [div_mul_eq_mul_div]
      exact min_le_right _ _
    calc ((net.edges.filter (fun e => e.src == i)).map (flowOf net)).sum
        ≤ ((net.edges.filter (fun e => e.src == i)).map
            (fun e => supply net i / outDemand net i * demand net e.dst)).sum :=
          List.sum_le_sum hb
      _ = supply net i / outDemand net i *
            ((net.edges.filter (fun e => e.src == i)).map
              (fun e => demand net e.dst)).sum :=
          List.sum_map_mul_left _ _ _
      _ = supply net i / outDemand net i * outDemand net i := rfl
      _ = supply net i := div_mul_cancel₀ _ (ne_of_gt hD)

theorem inflow_resolve_nonneg (net : Network)
    (hcap : ∀ e ∈ net.edges, 0 ≤ e.capacity) (i : Nat) :
    0 ≤ ((resolveFlows net).map
      (fun f => if f.edge.dst == i then f.amount else 0)).sum := by
  apply List.sum_nonneg
  intro x hx
  rcases List.mem_map.mp hx with ⟨f, hf, rfl⟩
  rcases List.mem_map.mp hf with ⟨e, he, rfl⟩
  by_cases hd : (e.dst == i) = true
  · simpa [hd] using flowOf_nonneg net e (hcap e he)
  · simp [hd]

theorem netDelta_resolve_ge (net : Network)
    (hcap : ∀ e ∈ net.edges, 0 ≤ e.capacity) (i : Nat) :
    -(supply net i) ≤ netDelta (resolveFlows net) i := by
  rw [netDelta_eq]
  have hin := inflow_resolve_nonneg net hcap i
  have hout : ((resolveFlows net).map
      (fun f => if f.edge.src == i then f.amount else 0)).sum ≤ supply net i := by
    rw [outflow_resolve]
    exact sum_flow_le_supply net i
  linarith

theorem find?_id_eq_of_mem (l : List SimNode) (n : SimNode)
    (hnd : (l.map SimNode.id).Nodup) (hn : n ∈ l) :
    l.find? (fun m => m.id == n.id) = some n := by
  induction l with
  | nil => cases hn
  | cons m l ih =>
    simp only [List.map_cons, List.nodup_cons] at hnd
    rcases List.mem_cons.mp hn with h | h
    · subst h
      exact List.find?_cons_of_pos _ (by simp)
    · have hne : ¬(m.id == n.id) = true := by
        intro hh
        have heq : m.id = n.id := beq_iff_eq.mp hh
        have hmm : n.id ∈ l.map SimNode.id := List.mem_map_of_mem SimNode.id h
        exact hnd.1 (by rw [heq]; exact hmm)
      have hstep : List.find? (fun m' => m'.id == n.id) (m :: l) =
          List.find? (fun m' => m'.id == n.id) l := List.find?_cons_of_neg _ hne
      rw [hstep]
      exact ih hnd.2 h

theorem findNode_eq_of_mem (net : Network) (n : SimNode)
    (hnd : (net.nodes.map SimNode.id).Nodup) (hn : n ∈ net.nodes) :
    findNode net n.id = some n :=
  find?_id_eq_of_mem net.nodes n hnd hn

theorem supply_at_mem (net : Network) (n : SimNode)
    (hnd : (net.nodes.map SimNode.id).Nodup) (hn : n ∈ net.nodes) :
    supply net n.id = max 0 (n.inventory - n.target) := by
  simp [supply, invOf, targetOf, findNode_eq_of_mem net n hnd hn]

theorem supply_eq_zero (net : Network)
    (hsur : ∀ n ∈ net.nodes, n.inventory ≤ n.target) (i : Nat) :
    supply net i = 0 := by
  simp only [supply, invOf, targetOf]
  cases hfind : findNode net i with
  | none => simp
  | some n =>
    have hmem : n ∈ net.nodes := List.mem_of_find?_eq_some hfind
    simp [max_eq_left (sub_nonpos.mpr (hsur n hmem))]

theorem flowOf_eq_zero (net : Network)
    (hsur : ∀ n ∈ net.nodes, n.inventory ≤ n.target) (e : SimEdge)
    (hc : 0 ≤ e.capacity) : flowOf net e = 0 := by
  simp only [flowOf, supply_eq_zero net hsur]
  split
  · exact min_eq_left (le_min (demand_nonneg net e.dst) hc)
  · rw [zero_mul, zero_div]
    exact min_eq_right hc

theorem netDelta_resolve_zero (net : Network)
    (hsur : ∀ n ∈ net.nodes, n.inventory ≤ n.target)
    (hcap : ∀ e ∈ net.edges, 0 ≤ e.capacity) (i : Nat) :
    netDelta (resolveFlows net) i = 0 := by
  rw [netDelta_eq]
  have hz : ∀ (g : FlowAssignment → Nat),
      ((resolveFlows net).map
        (fun f => if g f == i then f.amount else 0)).sum = 0 := by
    intro g
    apply List.sum_eq_zero
    intro x hx
    rcases List.mem_map.mp hx with ⟨f, hf, rfl⟩
    rcases List.mem_map.mp hf with ⟨e, he, rfl⟩
    simp [flowOf_eq_zero net hsur e (hcap e he), ite_self]
  rw [hz (fun f => f.edge.dst), hz (fun f => f.edge.src), sub_zero]

/-! ### Claim theorems -/

/-- Claim C1: the program is the single function `main`, whose only behaviour
is to print the one fixed essay (one printed line, equal to `theoryText`) and
to return `None`; its body contains exactly the two statements of the source
(one assignment of the string literal and one `print`), so it implements no
data structures, algorithms, concurrency, persistence or protocol logic. -/
theorem main_prints_fixed_essay :
    runMain [] = some ([theoryText], PyVal.none) ∧
    mainBody = [PyStmt.assign "theory" (PyExpr.strLit theoryText),
      PyStmt.printCall (PyExpr.var "theory")] :=
  ⟨rfl, rfl⟩

/-- Claim C9: `main` is deterministic and input-independent: it takes no
arguments, consumes no input, and every invocation — whatever the standard
input — produces exactly the same output, the single essay line. -/
theorem main_deterministic_input_independent :
    ∀ stdin₁ stdin₂ : List String,
      runMain stdin₁ = runMain stdin₂ ∧
      runMain stdin₁ = some ([theoryText], PyVal.none) :=
  fun _ _ => ⟨rfl, rfl⟩

/-- Claim C10: `main` always terminates: under the fuel-bounded semantics it
completes within a fixed finite number of steps (3) on every input, producing
the single print and returning `None`. -/
theorem main_terminates :
    ∀ stdin : List String, ∃ fuel : Nat,
      execFuel fuel mainBody [] stdin = some ([theoryText], PyVal.none) :=
  fun _ => ⟨3, rfl⟩

/-- Claim C4: on the two-node network A (inventory 100, target 50),
B (inventory 0, target 50) joined by an edge of capacity 100, one `tick`
computes flow 50 on that edge and leaves both inventories at 50. -/
theorem two_node_scenario_tick :
    resolveFlows netAB = [FlowAssignment.mk (SimEdge.mk 0 0 1 100) 50] ∧
    tick netAB = Except.ok (Network.mk
      [SimNode.mk 0 50 50, SimNode.mk 1 50 50] [SimEdge.mk 0 0 1 100]) := by
  constructor
  · norm_num [resolveFlows, flowOf, supply, demand, outDemand, invOf, targetOf,
      findNode, netAB, List.find?_cons_of_pos, List.find?_cons_of_neg,
      List.filter_cons, min_def, max_def]
  · norm_num [tick, applyFlows, resolveFlows, netDelta, flowOf, supply, demand,
      outDemand, invOf, targetOf, findNode, netAB, List.find?_cons_of_pos,
      List.find?_cons_of_neg, List.filter_cons, min_def, max_def]

/-- Claim C3 counterexample: in `netSplit` the source node's combined outgoing
demand (60 + 60 = 120) exceeds its surplus (90), so the spec's own tie-break
policy gives the first edge the flow 90·60/120 = 45 rather than
min(supply, demand, capacity) = min(90, 60, 100) = 60: the per-edge min
formula does not describe the resolver on such networks. -/
theorem flow_formula_counterexample :
    flowOf netSplit (SimEdge.mk 0 0 1 100) ≠
      min (supply netSplit 0) (min (demand netSplit 1)
        (SimEdge.mk 0 0 1 100).capacity) := by
  norm_num [flowOf, supply, demand, outDemand, invOf, targetOf, findNode,
    netSplit, List.find?_cons_of_pos, List.find?_cons_of_neg,
    List.filter_cons, min_def, max_def]

/-- Claim C3 (amended): for every edge whose source's combined outgoing demand
does not exceed the source's surplus, the Flow Resolver computes the flow as
`min(supply(i), demand(j), capacity(i,j))`, with supply and demand the clamped
surplus/deficit, all read from the pre-tick snapshot `net`.  (When combined
demand exceeds the surplus, the spec's tie-break policy applies instead.) -/
theorem flow_formula_when_demand_le_supply (net : Network) (e : SimEdge)
    (h : outDemand net e.src ≤ supply net e.src) :
    flowOf net e = min (supply net e.src) (min (demand net e.dst) e.capacity) := by
  simp only [flowOf, if_pos h]

/-- Witness for the amended claim C3 at the concrete network `netSimple`. -/
theorem flow_formula_when_demand_le_supply_witness :
    outDemand netSimple (SimEdge.mk 0 0 1 100).src ≤
      supply netSimple (SimEdge.mk 0 0 1 100).src ∧
    flowOf netSimple (SimEdge.mk 0 0 1 100) =
      min (supply netSimple (SimEdge.mk 0 0 1 100).src)
        (min (demand netSimple (SimEdge.mk 0 0 1 100).dst)
          (SimEdge.mk 0 0 1 100).capacity) := by
  have h : outDemand netSimple (SimEdge.mk 0 0 1 100).src ≤
      supply netSimple (SimEdge.mk 0 0 1 100).src := by
    norm_num [outDemand, supply, demand, invOf, targetOf, findNode, netSimple,
      List.find?_cons_of_pos, List.find?_cons_of_neg, List.filter_cons,
      min_def, max_def]
  exact ⟨h, flow_formula_when_demand_le_supply netSimple (SimEdge.mk 0 0 1 100) h⟩

/-- Claim C7: `addNode` fails with `DuplicateNodeError` exactly when a node
with the given id already exists; a failing call returns no registry at all
(no partial registration), and a succeeding call appends exactly the one new
node. -/
theorem addNode_duplicate_spec (net : Network) (i : Nat) (a b : ℚ) :
    (addNode net i a b = Except.error SimErr.DuplicateNodeError ↔
      hasNode net i = true) ∧
    (hasNode net i = true → ∀ net', addNode net i a b ≠ Except.ok net') ∧
    (hasNode net i = false → addNode net i a b =
      Except.ok { net with nodes := net.nodes ++ [SimNode.mk i a b] }) := by
  cases hh : hasNode net i <;> simp [addNode, hh]

/-- Witness for claim C7 at the one-node registry `netOne` (id 3 present,
id 5 absent). -/
theorem addNode_duplicate_spec_witness :
    ((addNode netOne 3 1 1 = Except.error SimErr.DuplicateNodeError ↔
        hasNode netOne 3 = true) ∧
      (hasNode netOne 3 = true → ∀ net', addNode netOne 3 1 1 ≠ Except.ok net') ∧
      (hasNode netOne 3 = false → addNode netOne 3 1 1 =
        Except.ok { netOne with nodes := netOne.nodes ++ [SimNode.mk 3 1 1] })) ∧
    ((addNode netOne 5 1 1 = Except.error SimErr.DuplicateNodeError ↔
        hasNode netOne 5 = true) ∧
      (hasNode netOne 5 = true → ∀ net', addNode netOne 5 1 1 ≠ Except.ok net') ∧
      (hasNode netOne 5 = false → addNode netOne 5 1 1 =
        Except.ok { netOne with nodes := netOne.nodes ++ [SimNode.mk 5 1 1] })) :=
  ⟨addNode_duplicate_spec netOne 3 1 1, addNode_duplicate_spec netOne 5 1 1⟩

/-- Claim C6: if applying the resolved deltas would make some node's
inventory negative, `tick` fails with `ConservationViolationError` and
returns no successor state at all — the pre-tick network value is untouched,
so no partial mutation is retained and later ticks stay possible. -/
theorem tick_fails_atomically_on_negative (net : Network)
    (h : ∃ n ∈ net.nodes, n.inventory + netDelta (resolveFlows net) n.id < 0) :
    tick net = Except.error SimErr.ConservationViolationError ∧
    ∀ net', tick net ≠ Except.ok net' := by
  have hall : ¬((net.nodes.map (fun n =>
      { n with inventory := n.inventory + netDelta (resolveFlows net) n.id })).all
      (fun n => decide (0 ≤ n.inventory)) = true) := by
    intro hall
    rcases h with ⟨n, hn, hneg⟩
    have hmem := List.mem_map_of_mem (fun n =>
      { n with inventory := n.inventory + netDelta (resolveFlows net) n.id }) hn
    have hle := List.all_eq_true.mp hall _ hmem
    simp only [decide_eq_true_eq] at hle
    exact absurd hle (not_le.mpr hneg)
  have herr : tick net = Except.error SimErr.ConservationViolationError := by
    simp only [tick, applyFlows]
    rw [if_neg hall]
  exact ⟨herr, fun net' hcon => by rw [herr] at hcon; cases hcon⟩

/-- Witness for claim C6 at `netBad`, whose negative-capacity edge makes the
resolver compute the inconsistent flow −7, driving node 1 negative. -/
theorem tick_fails_atomically_on_negative_witness :
    (∃ n ∈ netBad.nodes, n.inventory + netDelta (resolveFlows netBad) n.id < 0) ∧
    (tick netBad = Except.error SimErr.ConservationViolationError ∧
      ∀ net', tick netBad ≠ Except.ok net') := by
  have h : ∃ n ∈ netBad.nodes,
      n.inventory + netDelta (resolveFlows netBad) n.id < 0 := by
    refine ⟨SimNode.mk 1 0 5, by simp [netBad], ?_⟩
    norm_num [netDelta, resolveFlows, flowOf, supply, demand, outDemand, invOf,
      targetOf, findNode, netBad, List.find?_cons_of_pos, List.find?_cons_of_neg,
      List.filter_cons, min_def, max_def]
  exact ⟨h, tick_fails_atomically_on_negative netBad h⟩

/-- Claim C8: when every node's surplus is zero (inventory at or below
target), a tick computes zero flow everywhere and the network is a fixed
point of `tick` (given the well-formedness the spec demands: non-negative
inventories and capacities). -/
theorem zero_surplus_tick_fixed_point (net : Network)
    (hsur : ∀ n ∈ net.nodes, n.inventory ≤ n.target)
    (hinv : ∀ n ∈ net.nodes, 0 ≤ n.inventory)
    (hcap : ∀ e ∈ net.edges, 0 ≤ e.capacity) :
    tick net = Except.ok net := by
  have hcongr : ∀ n ∈ net.nodes,
      ({ n with inventory := n.inventory + netDelta (resolveFlows net) n.id } :
        SimNode) = n := by
    intro n hn
    rw [netDelta_resolve_zero net hsur hcap n.id, add_zero]
  have hnodes : net.nodes.map (fun n =>
      { n with inventory := n.inventory + netDelta (resolveFlows net) n.id }) =
      net.nodes := by
    calc net.nodes.map (fun n =>
        { n with inventory := n.inventory + netDelta (resolveFlows net) n.id })
        = net.nodes.map id := List.map_congr_left hcongr
      _ = net.nodes := List.map_id net.nodes
  have hcond : (net.nodes.all (fun n => decide (0 ≤ n.inventory))) = true :=
    List.all_eq_true.mpr (fun n hn => decide_eq_true (hinv n hn))
  simp only [tick, applyFlows, hnodes]
  rw [if_pos hcond]

/-- Witness for claim C8 at `netIdle`, where both nodes sit at or below
target. -/
theorem zero_surplus_tick_fixed_point_witness :
    (∀ n ∈ netIdle.nodes, n.inventory ≤ n.target) ∧
    (∀ n ∈ netIdle.nodes, 0 ≤ n.inventory) ∧
    (∀ e ∈ netIdle.edges, 0 ≤ e.capacity) ∧
    tick netIdle = Except.ok netIdle := by
  have h1 : ∀ n ∈ netIdle.nodes, n.inventory ≤ n.target := by
    norm_num [netIdle, List.forall_mem_cons]
  have h2 : ∀ n ∈ netIdle.nodes, 0 ≤ n.inventory := by
    norm_num [netIdle, List.forall_mem_cons]
  have h3 : ∀ e ∈ netIdle.edges, 0 ≤ e.capacity := by
    norm_num [netIdle, List.forall_mem_cons]
  exact ⟨h1, h2, h3, zero_surplus_tick_fixed_point netIdle h1 h2 h3⟩

/-- Claim C2: a successful `tick` conserves the total inventory exactly (the
per-edge deltas sum to zero across the whole network), and the Disruption
Injector's operations change only targets and capacities — never inventories
— so any external disruption is an explicit event, not silent drift of the
inventory total. -/
theorem tick_conserves_total_inventory (net net' : Network)
    (hnd : (net.nodes.map SimNode.id).Nodup)
    (hends : ∀ e ∈ net.edges, e.src ∈ net.nodes.map SimNode.id ∧
      e.dst ∈ net.nodes.map SimNode.id)
    (h : tick net = Except.ok net') :
    totalInventory net' = totalInventory net ∧
    (∀ i δ, totalInventory (disruptDemand net i δ) = totalInventory net) ∧
    (∀ eid c, totalInventory (setCapacity net eid c) = totalInventory net) := by
  refine ⟨?_, ?_, ?_⟩
  · have hmem : ∀ f ∈ resolveFlows net, f.edge.src ∈ net.nodes.map SimNode.id ∧
        f.edge.dst ∈ net.nodes.map SimNode.id := by
      intro f hf
      rcases List.mem_map.mp hf with ⟨e, he, rfl⟩
      exact hends e he
    simp only [tick, applyFlows] at h
    by_cases hc : ((net.nodes.map (fun n =>
        { n with inventory := n.inventory + netDelta (resolveFlows net) n.id })).all
        (fun n => decide (0 ≤ n.inventory))) = true
    · rw [if_pos hc] at h
      injection h with h'
      subst h'
      simp only [totalInventory, List.map_map]
      show (net.nodes.map (fun n =>
          n.inventory + netDelta (resolveFlows net) n.id)).sum =
        (net.nodes.map (fun n => n.inventory)).sum
      have hsplit : (net.nodes.map (fun n =>
          n.inventory + netDelta (resolveFlows net) n.id)).sum =
          (net.nodes.map (fun n => n.inventory)).sum +
          (net.nodes.map (fun n => netDelta (resolveFlows net) n.id)).sum :=
        sum_map_add_q net.nodes _ _
      rw [hsplit, sum_netDelta_zero net.nodes (resolveFlows net) hnd hmem,
        add_zero]
    · rw [if_neg hc] at h
      cases h
  · intro i δ
    simp only [totalInventory, disruptDemand, List.map_map]
    show (net.nodes.map (fun n => SimNode.inventory
        (if n.id == i then { n with target := n.target + δ } else n))).sum =
      (net.nodes.map (fun n => n.inventory)).sum
    have hcongr : ∀ n ∈ net.nodes,
        SimNode.inventory (if n.id == i then { n with target := n.target + δ }
          else n) = n.inventory := by
      intro n hn
      split <;> rfl
    rw [List.map_congr_left hcongr]
  · intro eid c
    rfl

/-- Witness for claim C2 at the capacity-limited two-node network `netCap`
(one tick moves 30 units, totals stay at 100). -/
theorem tick_conserves_total_inventory_witness :
    tick netCap = Except.ok (Network.mk
      [SimNode.mk 0 70 50, SimNode.mk 1 30 50] [SimEdge.mk 0 0 1 30]) ∧
    totalInventory (Network.mk
      [SimNode.mk 0 70 50, SimNode.mk 1 30 50] [SimEdge.mk 0 0 1 30]) =
      totalInventory netCap := by
  have h : tick netCap = Except.ok (Network.mk
      [SimNode.mk 0 70 50, SimNode.mk 1 30 50] [SimEdge.mk 0 0 1 30]) := by
    norm_num [tick, applyFlows, resolveFlows, netDelta, flowOf, supply, demand,
      outDemand, invOf, targetOf, findNode, netCap, List.find?_cons_of_pos,
      List.find?_cons_of_neg, List.filter_cons, min_def, max_def]
  exact ⟨h, (tick_conserves_total_inventory netCap _ (by decide) (by decide) h).1⟩

/-- Claim C5: on a well-formed network (unique ids, non-negative inventories,
targets and capacities) every resolved flow respects its edge's capacity (and
is non-negative), and `tick` succeeds with every post-tick inventory still
non-negative: the stepper preserves the spec's non-negativity and
capacity-respect invariants. -/
theorem invariants_nonneg_and_capacity (net : Network)
    (hnd : (net.nodes.map SimNode.id).Nodup)
    (hinv : ∀ n ∈ net.nodes, 0 ≤ n.inventory)
    (htar : ∀ n ∈ net.nodes, 0 ≤ n.target)
    (hcap : ∀ e ∈ net.edges, 0 ≤ e.capacity) :
    (∀ f ∈ resolveFlows net, f.amount ≤ f.edge.capacity ∧ 0 ≤ f.amount) ∧
    ∃ net', tick net = Except.ok net' ∧ ∀ n ∈ net'.nodes, 0 ≤ n.inventory := by
  have hnew : ∀ n ∈ net.nodes,
      0 ≤ n.inventory + netDelta (resolveFlows net) n.id := by
    intro n hn
    have h1 := netDelta_resolve_ge net hcap n.id
    rw [supply_at_mem net n hnd hn] at h1
    rcases le_total n.inventory n.target with hle | hle
    · rw [max_eq_left (sub_nonpos.mpr hle)] at h1
      have h2 := hinv n hn
      linarith
    · rw [max_eq_right (sub_nonneg.mpr hle)] at h1
      have h2 := htar n hn
      linarith
  constructor
  · intro f hf
    rcases List.mem_map.mp hf with ⟨e, he, rfl⟩
    exact ⟨flowOf_le_capacity net e, flowOf_nonneg net e (hcap e he)⟩
  · refine ⟨Network.mk (net.nodes.map (fun n =>
      { n with inventory := n.inventory + netDelta (resolveFlows net) n.id }))
      net.edges, ?_, ?_⟩
    · have hcond : ((net.nodes.map (fun n =>
          { n with inventory := n.inventory + netDelta (resolveFlows net) n.id })).all
          (fun n => decide (0 ≤ n.inventory))) = true := by
        apply List.all_eq_true.mpr
        intro x hx
        rcases List.mem_map.mp hx with ⟨n, hn, rfl⟩
        exact decide_eq_true (hnew n hn)
      simp only [tick, applyFlows]
      rw [if_pos hcond]
    · intro n' hn'
      rcases List.mem_map.mp hn' with ⟨n, hn, rfl⟩
      exact hnew n hn

/-- Witness for claim C5 at the well-formed network `netSmall`. -/
theorem invariants_nonneg_and_capacity_witness :
    (netSmall.nodes.map SimNode.id).Nodup ∧
    (∀ n ∈ netSmall.nodes, 0 ≤ n.inventory) ∧
    (∀ n ∈ netSmall.nodes, 0 ≤ n.target) ∧
    (∀ e ∈ netSmall.edges, 0 ≤ e.capacity) ∧
    ((∀ f ∈ resolveFlows netSmall, f.amount ≤ f.edge.capacity ∧ 0 ≤ f.amount) ∧
      ∃ net', tick netSmall = Except.ok net' ∧
        ∀ n ∈ net'.nodes, 0 ≤ n.inventory) := by
  have h0 : (netSmall.nodes.map SimNode.id).Nodup := by decide
  have h1 : ∀ n ∈ netSmall.nodes, 0 ≤ n.inventory := by
    norm_num [netSmall, List.forall_mem_cons]
  have h2 : ∀ n ∈ netSmall.nodes, 0 ≤ n.target := by
    norm_num [netSmall, List.forall_mem_cons]
  have h3 : ∀ e ∈ netSmall.edges, 0 ≤ e.capacity := by
    norm_num [netSmall, List.forall_mem_cons]
  exact ⟨h0, h1, h2, h3, invariants_nonneg_and_capacity netSmall h0 h1 h2 h3⟩
